import Mathlib

/-!
Verification development for the AI-OS core service (`src/ai-os_core.py`).

The file gives a shallow embedding of the service's data model and
operations: the SQLite-backed memory table, the JSON-lines event log,
the Flask route handlers, the authentication gate run before every
request, and the background heartbeat loop.  Pure Python / SQLite
library behaviour that the code relies on is modelled explicitly:
`str.strip` (the full `str.isspace` whitespace set, Unicode spaces
included), SQLite `LIKE` (with `%` and `_`
wildcards and ASCII-case-insensitive letters), `json.dumps` for a
string-valued dict (escaping of quotes, backslashes and control
characters; non-ASCII escaping of `ensure_ascii` is omitted since it
does not affect line structure or field values), and the
`AUTOINCREMENT` rowid discipline of the `memory` table.
-/

namespace AIOS

/-! ### Python string helpers -/

/-- The characters Python's `str.isspace()` — and hence `str.strip()`
with no argument — treats as whitespace: the ASCII whitespace
characters, the C0 information separators U+001C–U+001F, NEL (U+0085),
NBSP (U+00A0), Ogham space mark (U+1680), the typographic spaces
U+2000–U+200A, the line and paragraph separators (U+2028, U+2029),
narrow NBSP (U+202F), medium mathematical space (U+205F) and the
ideographic space (U+3000). -/
def isPySpace (c : Char) : Bool :=
  c = ' ' || c = '\t' || c = '\n' || c = '\r' || c = '\x0b' || c = '\x0c'
    || ('\x1c' ≤ c && c ≤ '\x1f') || c = '\x85' || c = '\xa0'
    || c = '\u1680' || ('\u2000' ≤ c && c ≤ '\u200a')
    || c = '\u2028' || c = '\u2029' || c = '\u202f' || c = '\u205f'
    || c = '\u3000'

/-- Model of Python `str.strip()`: remove leading and trailing whitespace. -/
def pyStrip (s : String) : String :=
  ⟨((s.data.dropWhile isPySpace).reverse.dropWhile isPySpace).reverse⟩

/-! ### SQLite `LIKE` semantics

`content LIKE '%' || keyword || '%'` is evaluated by SQLite with `%`
matching any sequence of characters, `_` matching any single character,
and ASCII letters compared case-insensitively. -/

/-- SQLite `LIKE` character comparison: ASCII-case-insensitive equality. -/
def charLikeEq (a b : Char) : Bool := a.toLower = b.toLower

/-- SQLite `LIKE` pattern matching over character lists:
`%` matches any sequence of characters (equivalently, the rest of the
pattern matches some suffix of the text), `_` matches any one
character, and other characters compare ASCII-case-insensitively. -/
def likeMatch : List Char → List Char → Bool
  | [], cs => cs.isEmpty
  | p :: ps, cs =>
    if p = '%' then
      cs.tails.any (fun suffix => likeMatch ps suffix)
    else
      match cs with
      | [] => false
      | c :: cs2 => (if p = '_' then true else charLikeEq p c) && likeMatch ps cs2

/-- The pattern built by `api_memory_search`: `'%' + keyword + '%'`. -/
def likePattern (keyword : String) : String := "%" ++ keyword ++ "%"

/-! ### JSON serialisation (model of `json.dumps` on the log dict) -/

/-- One structured log record, the dict built by `log_event`. -/
structure LogEntry where
  timestamp : String
  level : String
  message : String
  deriving DecidableEq, Repr

/-- Lower-case hex digit for a value below 16 (as emitted in `\uXXXX`). -/
def hexDigitChar (n : Nat) : Char :=
  if n < 10 then Char.ofNat (48 + n) else Char.ofNat (87 + n)

/-- The short escape code `json.dumps` uses for a character, if any. -/
def escCode (c : Char) : Option Char :=
  if c = '"' then some '"'
  else if c = '\\' then some '\\'
  else if c = '\n' then some 'n'
  else if c = '\t' then some 't'
  else if c = '\r' then some 'r'
  else if c = '\x08' then some 'b'
  else if c = '\x0c' then some 'f'
  else none

/-- JSON string escaping of one character: short escapes for the special
characters, `\u00XX` for the remaining control characters, the character
itself otherwise. -/
def escChar (c : Char) : List Char :=
  match escCode c with
  | some e => ['\\', e]
  | none =>
    if c.toNat < 32 then
      ['\\', 'u', '0', '0', hexDigitChar (c.toNat / 16), hexDigitChar (c.toNat % 16)]
    else [c]

/-- JSON string escaping of a character list. -/
def escList (cs : List Char) : List Char := cs.flatMap escChar

/-- JSON string escaping of a `String`. -/
def jsonEscape (s : String) : String := ⟨escList s.data⟩

/-- `json.dumps` on the `log_event` dict: keys in insertion order
(`timestamp`, `level`, `message`), default separators `", "` and `": "`. -/
def dumpsLogEntry (e : LogEntry) : String :=
  "\x7b\"timestamp\": \"" ++ jsonEscape e.timestamp ++
    "\", \"level\": \"" ++ jsonEscape e.level ++
    "\", \"message\": \"" ++ jsonEscape e.message ++ "\"\x7d"

/-- Value of an ASCII hex digit. -/
def hexVal (c : Char) : Option Nat :=
  if '0' ≤ c ∧ c ≤ '9' then some (c.toNat - 48)
  else if 'a' ≤ c ∧ c ≤ 'f' then some (c.toNat - 87)
  else if 'A' ≤ c ∧ c ≤ 'F' then some (c.toNat - 55)
  else none

/-- Decoding of a short JSON escape code. -/
def unescCode (e : Char) : Option Char :=
  if e = '"' then some '"'
  else if e = '\\' then some '\\'
  else if e = 'n' then some '\n'
  else if e = 't' then some '\t'
  else if e = 'r' then some '\r'
  else if e = 'b' then some '\x08'
  else if e = 'f' then some '\x0c'
  else none

/-- Parse a JSON string body up to and including its closing quote,
returning the decoded characters and the rest of the input. -/
def parseStr : List Char → Option (List Char × List Char)
  | [] => none
  | c :: rest =>
    if c = '"' then some ([], rest)
    else if c = '\\' then
      match rest with
      | [] => none
      | e :: rest1 =>
        if e = 'u' then
          match rest1 with
          | h1 :: h2 :: h3 :: h4 :: rest2 =>
            match hexVal h1, hexVal h2, hexVal h3, hexVal h4 with
            | some a, some b, some x, some d =>
              let v := ((a * 16 + b) * 16 + x) * 16 + d
              if v < 55296 then
                (parseStr rest2).map (fun p => (Char.ofNat v :: p.1, p.2))
              else none
            | _, _, _, _ => none
          | _ => none
        else
          match unescCode e with
          | none => none
          | some d => (parseStr rest1).map (fun p => (d :: p.1, p.2))
    else
      (parseStr rest).map (fun p => (c :: p.1, p.2))
termination_by cs => cs.length

/-- Consume an expected literal prefix. -/
def dropLit : List Char → List Char → Option (List Char)
  | [], cs => some cs
  | _ :: _, [] => none
  | l :: ls, c :: cs => if c = l then dropLit ls cs else none

/-- Strict parser for one log line: accepts exactly a JSON object with
the three string fields `timestamp`, `level`, `message` in that order,
and nothing after the closing brace. -/
def parseLogLine (s : String) : Option (String × String × String) :=
  match dropLit ("\x7b\"timestamp\": \"").data s.data with
  | none => none
  | some r0 =>
    match parseStr r0 with
    | none => none
    | some (ts, r1) =>
      match dropLit (", \"level\": \"").data r1 with
      | none => none
      | some r2 =>
        match parseStr r2 with
        | none => none
        | some (lvl, r3) =>
          match dropLit (", \"message\": \"").data r3 with
          | none => none
          | some r4 =>
            match parseStr r4 with
            | none => none
            | some (msg, r5) =>
              match dropLit ("\x7d").data r5 with
              | none => none
              | some r6 =>
                if r6 = [] then some (⟨ts⟩, ⟨lvl⟩, ⟨msg⟩) else none

/-! ### Data model

The `memory` table (`init_db`), the log file, and the whole-process
state.  A row's `id` is the SQLite `AUTOINCREMENT` primary key; `seq`
models the largest rowid ever handed out (SQLite's `sqlite_sequence`
entry), which lives in the database file and therefore survives process
restarts.  The log file is `none` while it has never been created and
`some lines` afterwards (`log_event` opens it in append mode, creating
it; each list element is one line, written with a trailing newline). -/

/-- One row of the `memory` table. -/
structure Row where
  id : Nat
  timestamp : String
  category : String
  content : String
  deriving DecidableEq, Repr

/-- The `memory` database file: the rows plus the `AUTOINCREMENT` sequence. -/
structure MemDB where
  rows : List Row
  seq : Nat
  deriving DecidableEq, Repr

/-- `init_db` creates the (empty) table; the sequence starts at 0 so the
first assigned id is 1. -/
def init_db : MemDB := { rows := [], seq := 0 }

/-- One search result, the projection `SELECT timestamp, category, content`. -/
structure SearchRow where
  timestamp : String
  category : String
  content : String
  deriving DecidableEq, Repr

/-- The persistent state touched by the service: database and log file. -/
structure SysState where
  db : MemDB
  logFile : Option (List String)
  deriving DecidableEq, Repr

/-- JSON response bodies produced by the handlers, with every field the
code puts in the dict carried explicitly (`count` is `len(...)` as
computed by the handler, not derived from the list here; the first
argument of `searchResults` is the `"matches"` key, whose name is
reserved in Lean). -/
inductive Body where
  | err (message : String)
  | statusMsg (status message : String)
  | searchResults (results : List SearchRow) (count : Nat)
  | logs (lines : List String) (count : Nat)
  | key (apiKey : String)
  deriving DecidableEq, Repr

/-- An HTTP response: status code plus JSON body. -/
structure HttpResp where
  code : Nat
  body : Body
  deriving DecidableEq, Repr

/-- The JSON payload of `POST /memory/add` (`request.json or {}`):
either key may be absent. -/
structure Payload where
  category : Option String := none
  content : Option String := none
  deriving DecidableEq, Repr

/-- The four routes the app exposes. -/
inductive Route where
  | memoryAdd (payload : Payload)
  | memorySearch (keyword : String)
  | logsRetrieve
  | getApiKey
  deriving DecidableEq, Repr

/-- An incoming request: the `X-API-KEY` header (if present) and the route. -/
structure Request where
  apiKey : Option String := none
  route : Route
  deriving DecidableEq, Repr

/-! ### Operations -/

/-- `log_event(message, level)`: append one line,
`json.dumps({"timestamp": now, "level": level.upper(), "message": message})`,
to the log file (append mode creates the file if needed).
`datetime.datetime.now().isoformat()` is passed in as `now`. -/
def log_event (logFile : Option (List String)) (now message : String)
    (level : String := "INFO") : Option (List String) :=
  some (logFile.getD [] ++ [dumpsLogEntry ⟨now, level.toUpper, message⟩])

/-- The database half of `add_memory_entry`: the parameterised
`INSERT INTO memory (timestamp, category, content) VALUES (?, ?, ?)`,
with the `AUTOINCREMENT` id assigned as one more than the largest id
ever used. -/
def add_row (db : MemDB) (now category content : String) : MemDB :=
  { rows := db.rows ++ [{ id := db.seq + 1, timestamp := now,
                          category := category, content := content }],
    seq := db.seq + 1 }

/-- `add_memory_entry(category, content)`: insert the row (under the
lock), commit, then log a success event. -/
def add_memory_entry (st : SysState) (now category content : String) : SysState :=
  { db := add_row st.db now category content,
    logFile := log_event st.logFile now
      ("Memory entry added under " ++ "'" ++ category ++ "'") "SUCCESS" }

/-- Handler of `POST /memory/add`: default the category to `"General"`
and the content to `""`, reject blank content with a 400, otherwise
store the (unstripped) content and answer 200. -/
def api_add_memory (st : SysState) (now : String) (payload : Payload) :
    SysState × HttpResp :=
  let category := payload.category.getD "General"
  let content := payload.content.getD ""
  if pyStrip content = "" then
    (st, ⟨400, .statusMsg "Error" "Content cannot be empty"⟩)
  else
    (add_memory_entry st now category content,
     ⟨200, .statusMsg "Success" "Memory entry added."⟩)

/-- Handler of `GET /memory/search/<keyword>`:
`SELECT timestamp, category, content FROM memory WHERE content LIKE '%keyword%'`,
answered as `{"matches": results, "count": len(results)}`.  Read-only. -/
def api_memory_search (st : SysState) (keyword : String) : HttpResp :=
  let results :=
    (st.db.rows.filter
        (fun row => likeMatch (likePattern keyword).data row.content.data)).map
      (fun row => SearchRow.mk row.timestamp row.category row.content)
  ⟨200, .searchResults results results.length⟩

/-- Handler of `GET /logs/retrieve`: 404 if the log file does not exist,
otherwise `readlines()[-100:]` (Python's slice keeps the last
`min 100 n` lines in file order) with its length as `count`. -/
def retrieve_logs (logFile : Option (List String)) : HttpResp :=
  match logFile with
  | none => ⟨404, .err "Log file not found."⟩
  | some lines =>
    let logs := lines.drop (lines.length - 100)
    ⟨200, .logs logs logs.length⟩

/-- The `before_request` hook: compare the `X-API-KEY` header (absent ↦
`none`) against the secret; on mismatch answer 401 and short-circuit. -/
def authenticate (secret : String) (req : Request) : Option HttpResp :=
  if req.apiKey ≠ some secret then some ⟨401, .err "Unauthorized"⟩ else none

/-- Dispatch to the matched route's handler (only reached when
`authenticate` returned nothing). -/
def run_route (secret : String) (st : SysState) (now : String) :
    Route → SysState × HttpResp
  | .memoryAdd payload => api_add_memory st now payload
  | .memorySearch keyword => (st, api_memory_search st keyword)
  | .logsRetrieve => (st, retrieve_logs st.logFile)
  | .getApiKey => (st, ⟨200, .key secret⟩)

/-- Full request processing: the authentication gate runs first for
every route; only on a matching key does the handler run. -/
def dispatch (secret : String) (st : SysState) (now : String) (req : Request) :
    SysState × HttpResp :=
  match authenticate secret req with
  | some resp => (st, resp)
  | none => run_route secret st now req.route

/-! ### The background heartbeat loop -/

/-- `PERIODIC_TASK_INTERVAL = 300` (5 minutes). -/
def PERIODIC_TASK_INTERVAL : Nat := 300

/-- The message logged by each normal heartbeat iteration. -/
def heartbeat_message : String := "Self-check: AI-OS running smoothly"

/-- Observable actions of the heartbeat thread. -/
inductive Event where
  | log (message level : String)
  | sleep (secs : Nat)
  deriving DecidableEq, Repr

/-- One iteration of the `while True` body of `background_maintenance`:
normally it logs the heartbeat message and then sleeps the fixed
interval; if the body raises (modelled as `some e`, the exception's
string), the `except` branch logs the error and sleeps the same
interval.  Either way the loop continues with the next iteration. -/
def background_maintenance_iter : Option String → List Event
  | none =>
    [.log heartbeat_message "INFO", .sleep PERIODIC_TASK_INTERVAL]
  | some e =>
    [.log ("Background maintenance error: " ++ e) "ERROR",
     .sleep PERIODIC_TASK_INTERVAL]

/-- The event trace of iteration `n` of the never-ending loop, given
which iterations raise. Being total in `n` expresses that every
iteration is followed by another: the loop never terminates. -/
def background_maintenance (faults : Nat → Option String) (n : Nat) : List Event :=
  background_maintenance_iter (faults n)

/-- A sequence of store-level adds (`now`, `category`, `content`)
applied to a database file, in order.  Restarting the process between
adds changes nothing here: the sequence counter is part of the file. -/
def applyAdds (ops : List (String × String × String)) (db : MemDB) : MemDB :=
  ops.foldl (fun d op => add_row d op.1 op.2.1 op.2.2) db

/-! ### Lemmas about `pyStrip` -/

/-- `content.strip()` is empty exactly when every character is whitespace
(in particular when `content` is empty). -/
theorem pyStrip_eq_empty_iff (s : String) :
    pyStrip s = "" ↔ ∀ c ∈ s.data, isPySpace c := by
  constructor
  · intro h
    have hdata :
        ((s.data.dropWhile isPySpace).reverse.dropWhile isPySpace).reverse = [] := by
      simpa [pyStrip] using congrArg String.data h
    have hrev : ∀ c ∈ (s.data.dropWhile isPySpace).reverse, isPySpace c := by
      have := List.reverse_eq_nil_iff.mp hdata
      intro c hc
      exact List.dropWhile_eq_nil_iff.mp this c hc
    have hdrop : ∀ c ∈ s.data.dropWhile isPySpace, isPySpace c := by
      intro c hc
      exact hrev c (List.mem_reverse.mpr hc)
    intro c hc
    rcases List.mem_append.mp
        ((List.takeWhile_append_dropWhile isPySpace s.data) ▸ hc) with h1 | h1
    · exact List.mem_takeWhile_imp h1
    · exact hdrop c h1
  · intro h
    have h1 : s.data.dropWhile isPySpace = [] :=
      List.dropWhile_eq_nil_iff.mpr h
    simp [pyStrip, h1]

/-! ### Lemmas about `likeMatch` -/

/-- A `%` at the head of the pattern can swallow any prefix of the text. -/
theorem likeMatch_percent_of (ps cs2 pre : List Char)
    (h : likeMatch ps cs2 = true) :
    likeMatch ('%' :: ps) (pre ++ cs2) = true := by
  simp only [likeMatch, reduceIte, List.any_eq_true]
  exact ⟨cs2, (List.mem_tails _ _).mpr ⟨pre, rfl⟩, h⟩

/-- A literal occurrence of `k` in the text matches `k` read as a
pattern (even when `k` itself contains `%` or `_`). -/
theorem likeMatch_append_self (k : List Char) (ps rest : List Char)
    (h : likeMatch ps rest = true) :
    likeMatch (k ++ ps) (k ++ rest) = true := by
  induction k with
  | nil => simpa using h
  | cons c k ih =>
    by_cases hc : c = '%'
    · subst hc
      simp only [List.cons_append, likeMatch, reduceIte, List.any_eq_true]
      exact ⟨k ++ rest, (List.mem_tails _ _).mpr ⟨['%'], rfl⟩, ih⟩
    · by_cases hu : c = '_'
      · subst hu
        simpa [likeMatch] using ih
      · simp [likeMatch, hc, hu, charLikeEq, ih]

/-- A trailing `%` matches any remaining text. -/
theorem likeMatch_percent_nil (cs : List Char) : likeMatch ['%'] cs = true := by
  simp only [likeMatch, reduceIte, List.any_eq_true]
  exact ⟨[], (List.mem_tails _ _).mpr ⟨cs, by simp⟩, by simp [likeMatch]⟩

/-- If `keyword` occurs literally as a substring of `content`, then the
pattern built by the search handler matches `content`. -/
theorem likeMatch_likePattern_of_substring (keyword content : String)
    (h : ∃ pre suf, content.data = pre ++ keyword.data ++ suf) :
    likeMatch (likePattern keyword).data content.data = true := by
  obtain ⟨pre, suf, hc⟩ := h
  have hpat : (likePattern keyword).data = '%' :: (keyword.data ++ ['%']) := by
    simp [likePattern, String.data_append]
  rw [hpat, hc, List.append_assoc]
  exact likeMatch_percent_of _ _ pre
    (likeMatch_append_self keyword.data ['%'] suf (likeMatch_percent_nil suf))

/-! ### The id discipline of the memory table -/

/-- Invariant of the database file: ids are strictly increasing in
storage order and never exceed the `AUTOINCREMENT` sequence value. -/
def dbInv (db : MemDB) : Prop :=
  (db.rows.map Row.id).Pairwise (· < ·) ∧ ∀ r ∈ db.rows, r.id ≤ db.seq

/-- One `INSERT` preserves the id invariant: the fresh id is strictly
above every id ever handed out. -/
theorem add_row_inv {db : MemDB} (h : dbInv db) (now category content : String) :
    dbInv (add_row db now category content) := by
  obtain ⟨h1, h2⟩ := h
  constructor
  · simp only [add_row, List.map_append, List.map_cons, List.map_nil]
    rw [List.pairwise_append]
    refine ⟨h1, by simp, ?_⟩
    intro a ha b hb
    simp only [List.mem_singleton] at hb
    subst hb
    obtain ⟨r, hr, hra⟩ := List.mem_map.mp ha
    have := h2 r hr
    omega
  · intro r hr
    simp only [add_row, List.mem_append, List.mem_singleton] at hr
    rcases hr with hr | hr
    · exact Nat.le_trans (h2 r hr) (Nat.le_succ _)
    · subst hr; simp [add_row]

/-- Applying any sequence of adds preserves the id invariant. -/
theorem applyAdds_inv (ops : List (String × String × String)) :
    ∀ db : MemDB, dbInv db → dbInv (applyAdds ops db) := by
  induction ops with
  | nil => intro db h; simpa [applyAdds] using h
  | cons op ops ih =>
    intro db h
    rw [applyAdds, List.foldl_cons]
    exact ih _ (add_row_inv h _ _ _)

/-! ### Round trip of the log-line serialisation -/

/-- `hexVal` inverts `hexDigitChar` on digit values. -/
theorem hexVal_hexDigitChar : ∀ n, n < 16 → hexVal (hexDigitChar n) = some n := by
  decide

/-- Decoding inverts the short-escape table. -/
theorem unescCode_escCode {c e : Char} (h : escCode c = some e) :
    unescCode e = some c := by
  unfold escCode at h
  split_ifs at h with h1 h2 h3 h4 h5 h6 h7 <;> (try simp at h) <;> subst_vars <;> decide

/-- No short escape code is the letter `u`. -/
theorem escCode_ne_u {c e : Char} (h : escCode c = some e) : e ≠ 'u' := by
  unfold escCode at h
  split_ifs at h with h1 h2 h3 h4 h5 h6 h7 <;> (try simp at h) <;> subst_vars <;> decide

/-- Characters with a short escape code are control or JSON-special,
never a newline as code letter. -/
theorem escCode_ne_newline {c e : Char} (h : escCode c = some e) : e ≠ '\n' := by
  unfold escCode at h
  split_ifs at h with h1 h2 h3 h4 h5 h6 h7 <;> (try simp at h) <;> subst_vars <;> decide

/-- `parseStr` stops at an unescaped quote. -/
theorem parseStr_quote (r : List Char) : parseStr ('"' :: r) = some ([], r) := by
  rw [parseStr.eq_def]; simp

/-- `parseStr` decodes a short escape sequence. -/
theorem parseStr_esc (e : Char) (rest1 : List Char) (d : Char)
    (hne : e ≠ 'u') (hdec : unescCode e = some d) :
    parseStr ('\\' :: e :: rest1) =
      (parseStr rest1).map (fun p => (d :: p.1, p.2)) := by
  rw [parseStr.eq_def]; simp [hne, hdec]

/-- `parseStr` keeps an unescaped ordinary character. -/
theorem parseStr_plain (c : Char) (rest : List Char)
    (hq : c ≠ '"') (hb : c ≠ '\\') :
    parseStr (c :: rest) =
      (parseStr rest).map (fun p => (c :: p.1, p.2)) := by
  rw [parseStr.eq_def]; simp [hq, hb]

/-- `parseStr` decodes a `\u00XX` escape sequence. -/
theorem parseStr_unicode (d1 d2 : Char) (a b : Nat) (rest2 : List Char)
    (h1 : hexVal d1 = some a) (h2 : hexVal d2 = some b)
    (hab : a * 16 + b < 55296) :
    parseStr ('\\' :: 'u' :: '0' :: '0' :: d1 :: d2 :: rest2) =
      (parseStr rest2).map (fun p => (Char.ofNat (a * 16 + b) :: p.1, p.2)) := by
  rw [parseStr.eq_def]
  have h0 : hexVal '0' = some 0 := by decide
  simp [h0, h1, h2, hab]

/-- `parseStr` inverts `escList` up to the closing quote. -/
theorem parseStr_escList (s : List Char) (r : List Char) :
    parseStr (escList s ++ '"' :: r) = some (s, r) := by
  induction s with
  | nil => simpa [escList] using parseStr_quote r
  | cons c s ih =>
    have hdef : escList (c :: s) = escChar c ++ escList s := by
      simp [escList]
    rw [hdef, List.append_assoc]
    cases hec : escCode c with
    | some e =>
      have hne : e ≠ 'u' := escCode_ne_u hec
      have hdec : unescCode e = some c := unescCode_escCode hec
      rw [show escChar c = ['\\', e] by simp [escChar, hec]]
      simp only [List.cons_append, List.nil_append]
      rw [parseStr_esc e _ c hne hdec, ih]
      rfl
    | none =>
      by_cases hlt : c.toNat < 32
      · have hd1 : hexVal (hexDigitChar (c.toNat / 16)) = some (c.toNat / 16) :=
          hexVal_hexDigitChar _ (by omega)
        have hd2 : hexVal (hexDigitChar (c.toNat % 16)) = some (c.toNat % 16) :=
          hexVal_hexDigitChar _ (by omega)
        have hofNat : Char.ofNat (c.toNat / 16 * 16 + c.toNat % 16) = c := by
          rw [show c.toNat / 16 * 16 + c.toNat % 16 = c.toNat by omega]
          exact Char.ofNat_toNat c
        rw [show escChar c =
            ['\\', 'u', '0', '0', hexDigitChar (c.toNat / 16),
              hexDigitChar (c.toNat % 16)] by simp [escChar, hec, hlt]]
        simp only [List.cons_append, List.nil_append]
        rw [parseStr_unicode _ _ _ _ _ hd1 hd2 (by omega), ih]
        simp [hofNat]
      · have hq : c ≠ '"' := by
          intro h; subst h; simp [escCode] at hec
        have hb : c ≠ '\\' := by
          intro h; subst h; simp [escCode] at hec
        rw [show escChar c = [c] by simp [escChar, hec, hlt]]
        simp only [List.cons_append, List.nil_append]
        rw [parseStr_plain c _ hq hb, ih]
        rfl

/-- `dropLit` consumes exactly its literal. -/
theorem dropLit_append (l cs : List Char) : dropLit l (l ++ cs) = some cs := by
  induction l with
  | nil => simp [dropLit]
  | cons c l ih => simp [dropLit, ih]

/-- Parsing a serialised log entry gives back exactly its three fields. -/
theorem parseLogLine_dumps (e : LogEntry) :
    parseLogLine (dumpsLogEntry e) = some (e.timestamp, e.level, e.message) := by
  have h2 : ("\", \"level\": \"" : String).data =
      '"' :: (", \"level\": \"" : String).data := rfl
  have h3 : ("\", \"message\": \"" : String).data =
      '"' :: (", \"message\": \"" : String).data := rfl
  have h4 : ("\"\x7d" : String).data = '"' :: ("\x7d" : String).data := rfl
  simp [parseLogLine, dumpsLogEntry, jsonEscape, String.data_append,
    dropLit, parseStr_escList]

/-! ### A serialised log entry is a single line -/

/-- Hex digit characters are never a newline. -/
theorem hexDigitChar_ne_newline : ∀ n, n < 16 → hexDigitChar n ≠ '\n' := by
  decide

/-- The escape expansion of any character contains no newline. -/
theorem newline_not_mem_escChar (c : Char) : '\n' ∉ escChar c := by
  intro hmem
  cases hec : escCode c with
  | some e =>
    have hne := escCode_ne_newline hec
    rw [show escChar c = ['\\', e] by simp [escChar, hec]] at hmem
    rcases List.mem_cons.mp hmem with h | h
    · exact absurd h (by decide)
    · exact hne (List.mem_singleton.mp h).symm
  | none =>
    by_cases hlt : c.toNat < 32
    · rw [show escChar c =
          ['\\', 'u', '0', '0', hexDigitChar (c.toNat / 16),
            hexDigitChar (c.toNat % 16)] by simp [escChar, hec, hlt]] at hmem
      rcases List.mem_cons.mp hmem with h | h
      · exact absurd h (by decide)
      rcases List.mem_cons.mp h with h | h
      · exact absurd h (by decide)
      rcases List.mem_cons.mp h with h | h
      · exact absurd h (by decide)
      rcases List.mem_cons.mp h with h | h
      · exact absurd h (by decide)
      rcases List.mem_cons.mp h with h | h
      · exact hexDigitChar_ne_newline _ (by omega) h.symm
      · exact hexDigitChar_ne_newline _ (by omega) (List.mem_singleton.mp h).symm
    · rw [show escChar c = [c] by simp [escChar, hec, hlt]] at hmem
      have hc : c = '\n' := (List.mem_singleton.mp hmem).symm
      subst hc
      simp [escCode] at hec

/-- The escape expansion of any string contains no newline. -/
theorem newline_not_mem_escList (cs : List Char) : '\n' ∉ escList cs := by
  induction cs with
  | nil => simp [escList]
  | cons c cs ih =>
    have hdef : escList (c :: cs) = escChar c ++ escList cs := by simp [escList]
    rw [hdef]
    intro h
    rcases List.mem_append.mp h with h | h
    · exact newline_not_mem_escChar c h
    · exact ih h

/-- A serialised log entry contains no newline: written with its
trailing `"\n"` it is exactly one line of the file. -/
theorem newline_not_mem_dumps (e : LogEntry) : '\n' ∉ (dumpsLogEntry e).data := by
  simp only [dumpsLogEntry, jsonEscape, String.data_append]
  intro h
  simp only [List.mem_append] at h
  rcases h with ((((((h | h) | h) | h) | h) | h) | h)
  · exact absurd h (by decide)
  · exact newline_not_mem_escList _ h
  · exact absurd h (by decide)
  · exact newline_not_mem_escList _ h
  · exact absurd h (by decide)
  · exact newline_not_mem_escList _ h
  · exact absurd h (by decide)

/-! ### Claim theorems -/

/-- C1: for every (category, content) pair whose add succeeds (content
has a non-whitespace character, hence is non-empty), a subsequent search
for any substring of the content returns at least one match whose
timestamp, category and content equal those of the stored entry. -/
theorem add_then_search_finds_entry (st : SysState) (now category content keyword : String)
    (hcontent : ¬ ∀ c ∈ content.data, isPySpace c)
    (hsub : ∃ pre suf, content.data = pre ++ keyword.data ++ suf) :
    (api_add_memory st now { category := some category, content := some content }).2 =
      ⟨200, .statusMsg "Success" "Memory entry added."⟩ ∧
    ∃ found count,
      api_memory_search
          (api_add_memory st now
            { category := some category, content := some content }).1 keyword =
        ⟨200, .searchResults found count⟩ ∧
      SearchRow.mk now category content ∈ found := by
  have hne : ¬ pyStrip content = "" := fun h => hcontent ((pyStrip_eq_empty_iff content).mp h)
  have hadd : api_add_memory st now { category := some category, content := some content } =
      (add_memory_entry st now category content,
       ⟨200, .statusMsg "Success" "Memory entry added."⟩) := by
    simp [api_add_memory, hne]
  refine ⟨by rw [hadd], ?_⟩
  rw [hadd]
  refine ⟨_, _, rfl, ?_⟩
  have hrow : (⟨st.db.seq + 1, now, category, content⟩ : Row) ∈
      (add_memory_entry st now category content).db.rows := by
    simp [add_memory_entry, add_row]
  refine List.mem_map.mpr ⟨_, List.mem_filter.mpr ⟨hrow, ?_⟩, rfl⟩
  exact likeMatch_likePattern_of_substring keyword content hsub

/-- C1 witness: the spec's concrete scenario, executed. -/
theorem add_then_search_finds_entry_witness :
    (api_add_memory ⟨init_db, none⟩ "t0"
        { category := some "test", content := some "hello world" }).2 =
      ⟨200, .statusMsg "Success" "Memory entry added."⟩ ∧
    ∃ found count,
      api_memory_search
          (api_add_memory ⟨init_db, none⟩ "t0"
            { category := some "test", content := some "hello world" }).1 "hello" =
        ⟨200, .searchResults found count⟩ ∧
      SearchRow.mk "t0" "test" "hello world" ∈ found :=
  add_then_search_finds_entry ⟨init_db, none⟩ "t0" "test" "hello world" "hello"
    (by decide) ⟨[], (" world" : String).data, by decide⟩

/-- C2: the authentication gate runs for every route (the key-issuing
route included): a request whose header is absent or wrong is answered
401 Unauthorized with no handler logic running, and a request with the
right header proceeds to the route's handler. -/
theorem authentication_gate_spec (secret : String) (st : SysState) (now : String)
    (req : Request) :
    (req.apiKey ≠ some secret →
      dispatch secret st now req = (st, ⟨401, .err "Unauthorized"⟩)) ∧
    (req.apiKey = some secret →
      dispatch secret st now req = run_route secret st now req.route) := by
  constructor
  · intro h
    simp [dispatch, authenticate, h]
  · intro h
    simp [dispatch, authenticate, h]

/-- C2 witness: with no key the key-issuing endpoint itself answers 401;
with the right key it hands out the secret. -/
theorem authentication_gate_spec_witness :
    dispatch "s3cret" ⟨init_db, none⟩ "t0" ⟨none, .getApiKey⟩ =
      (⟨init_db, none⟩, ⟨401, .err "Unauthorized"⟩) ∧
    dispatch "s3cret" ⟨init_db, none⟩ "t0" ⟨some "s3cret", .getApiKey⟩ =
      (⟨init_db, none⟩, ⟨200, .key "s3cret"⟩) :=
  ⟨(authentication_gate_spec "s3cret" ⟨init_db, none⟩ "t0" ⟨none, .getApiKey⟩).1
      (by decide),
   (authentication_gate_spec "s3cret" ⟨init_db, none⟩ "t0" ⟨some "s3cret", .getApiKey⟩).2
      rfl⟩

/-- C3: an add whose content is empty or all-whitespace is answered 400
with status `"Error"` and message `"Content cannot be empty"`, and the
state (memory table and log file alike) is returned unchanged. -/
theorem add_blank_content_rejected (st : SysState) (now : String) (payload : Payload)
    (hblank : ∀ c ∈ (payload.content.getD "").data, isPySpace c) :
    api_add_memory st now payload =
      (st, ⟨400, .statusMsg "Error" "Content cannot be empty"⟩) := by
  have h : pyStrip (payload.content.getD "") = "" :=
    (pyStrip_eq_empty_iff _).mpr hblank
  simp [api_add_memory, h]

/-- C3 witness: the spec's concrete scenario `{"content": "   "}`. -/
theorem add_blank_content_rejected_witness :
    api_add_memory ⟨init_db, none⟩ "t0" { category := none, content := some "   " } =
      (⟨init_db, none⟩, ⟨400, .statusMsg "Error" "Content cannot be empty"⟩) :=
  add_blank_content_rejected ⟨init_db, none⟩ "t0"
    { category := none, content := some "   " } (by decide)

/-- C4: log retrieval returns the last at-most-100 lines in file order
(all of them when fewer than 100 exist), and answers 404 exactly when
the log file does not exist. -/
theorem retrieve_logs_spec (logFile : Option (List String)) :
    (∀ lines, logFile = some lines →
      retrieve_logs logFile =
        ⟨200, .logs (lines.drop (lines.length - 100))
          (lines.drop (lines.length - 100)).length⟩ ∧
      (lines.drop (lines.length - 100)).length ≤ 100 ∧
      (lines.drop (lines.length - 100)).length = min 100 lines.length ∧
      (lines.drop (lines.length - 100)).IsSuffix lines) ∧
    ((retrieve_logs logFile).code = 404 ↔ logFile = none) := by
  constructor
  · rintro lines rfl
    refine ⟨rfl, ?_, ?_, List.drop_suffix _ _⟩
    · rw [List.length_drop]; omega
    · rw [List.length_drop]; omega
  · cases logFile with
    | none => simp [retrieve_logs]
    | some lines => simp [retrieve_logs]

/-- C4 witness: a 101-line file yields its last 100 lines, and a missing
file yields a 404. -/
theorem retrieve_logs_spec_witness :
    retrieve_logs (some (List.replicate 101 "x")) =
      ⟨200, .logs
        ((List.replicate 101 "x").drop ((List.replicate 101 "x").length - 100))
        ((List.replicate 101 "x").drop ((List.replicate 101 "x").length - 100)).length⟩ ∧
    ((List.replicate 101 "x").drop ((List.replicate 101 "x").length - 100)).length ≤ 100 ∧
    (retrieve_logs (none : Option (List String))).code = 404 := by
  have h1 := (retrieve_logs_spec (some (List.replicate 101 "x"))).1
    (List.replicate 101 "x") rfl
  exact ⟨h1.1, h1.2.1, (retrieve_logs_spec (none : Option (List String))).2.mpr rfl⟩

/-- C5 counterexample: the claim fails as stated.  `"%"` occurs as a
substring of the content of zero stored entries, yet the search returns
that entry (with `count = 1`, not `0`): the keyword is spliced into a
`LIKE` pattern, so `%` and `_` act as wildcards rather than literal
characters. -/
theorem search_no_match_counterexample :
    (∀ row ∈ (⟨⟨[⟨1, "t0", "General", "hello"⟩], 1⟩, none⟩ : SysState).db.rows,
        ¬ ∃ pre suf, row.content.data = pre ++ ("%" : String).data ++ suf) ∧
    api_memory_search (⟨⟨[⟨1, "t0", "General", "hello"⟩], 1⟩, none⟩ : SysState) "%" =
      ⟨200, .searchResults [⟨"t0", "General", "hello"⟩] 1⟩ := by
  constructor
  · intro row hrow
    have hr : row = ⟨1, "t0", "General", "hello"⟩ := List.mem_singleton.mp hrow
    subst hr
    rintro ⟨pre, suf, h⟩
    have h' : ("hello" : String).data = pre ++ ("%" : String).data ++ suf := h
    have hmem : '%' ∈ ("hello" : String).data := by
      rw [h']; simp
    exact absurd hmem (by decide)
  · decide

/-- C5 (amended): for every keyword whose `LIKE` pattern `'%keyword%'`
(SQLite semantics: `%`/`_` wildcards, ASCII-case-insensitive letters)
matches the content of zero stored entries, the search returns 200 with
an empty match list and count 0 — and the handler never returns any
other status code for any keyword. -/
theorem search_no_match_empty (st : SysState) (keyword : String)
    (h : ∀ row ∈ st.db.rows,
        likeMatch (likePattern keyword).data row.content.data = false) :
    api_memory_search st keyword = ⟨200, .searchResults [] 0⟩ ∧
    ∀ k : String, (api_memory_search st k).code = 200 := by
  constructor
  · have hfil : st.db.rows.filter
        (fun row => likeMatch (likePattern keyword).data row.content.data) = [] :=
      List.filter_eq_nil_iff.mpr (fun a ha => by simp [h a ha])
    simp [api_memory_search, hfil]
  · intro k
    simp [api_memory_search]

/-- C5 witness: a keyword matching nothing yields the empty result. -/
theorem search_no_match_empty_witness :
    api_memory_search (⟨⟨[⟨1, "t0", "General", "hello"⟩], 1⟩, none⟩ : SysState) "zzz" =
      ⟨200, .searchResults [] 0⟩ :=
  (search_no_match_empty (⟨⟨[⟨1, "t0", "General", "hello"⟩], 1⟩, none⟩ : SysState)
    "zzz" (by decide)).1

/-- C6: every call to `log_event` appends exactly one line to the log
file; that line contains no newline character, and parsing it back as a
JSON object yields exactly the three fields `timestamp`, `level`
(upper-cased from the argument) and `message`. -/
theorem log_event_appends_one_json_line (logFile : Option (List String))
    (now message level : String) :
    ∃ line,
      log_event logFile now message level = some (logFile.getD [] ++ [line]) ∧
      '\n' ∉ line.data ∧
      parseLogLine line = some (now, level.toUpper, message) :=
  ⟨dumpsLogEntry ⟨now, level.toUpper, message⟩, rfl,
   newline_not_mem_dumps ⟨now, level.toUpper, message⟩,
   parseLogLine_dumps ⟨now, level.toUpper, message⟩⟩

/-- C7 counterexample: the claim fails as stated.  A normal iteration of
the maintenance loop does not sleep first and then log: the body logs
the heartbeat message first and sleeps afterwards. -/
theorem heartbeat_order_counterexample :
    background_maintenance (fun _ => none) 0 ≠
      [Event.sleep PERIODIC_TASK_INTERVAL,
       Event.log heartbeat_message "INFO"] := by
  decide

/-- C7 (amended): every iteration of the loop first writes the
informational heartbeat log line and then sleeps the fixed interval
(default 300 seconds); on an exception it logs an error-level message
and sleeps the same fixed delay, and every iteration is followed by
another — the loop never terminates. -/
theorem heartbeat_iteration_spec (faults : Nat → Option String) (n : Nat) :
    (faults n = none →
      background_maintenance faults n =
        [Event.log heartbeat_message "INFO",
         Event.sleep PERIODIC_TASK_INTERVAL]) ∧
    (∀ e, faults n = some e →
      background_maintenance faults n =
        [Event.log ("Background maintenance error: " ++ e) "ERROR",
         Event.sleep PERIODIC_TASK_INTERVAL]) := by
  constructor
  · intro h
    simp [background_maintenance, h, background_maintenance_iter]
  · intro e h
    simp [background_maintenance, h, background_maintenance_iter]

/-- C7 witness: a fault-free iteration logs then sleeps. -/
theorem heartbeat_iteration_spec_witness :
    background_maintenance (fun _ => none) 0 =
      [Event.log heartbeat_message "INFO",
       Event.sleep PERIODIC_TASK_INTERVAL] :=
  (heartbeat_iteration_spec (fun _ => none) 0).1 rfl

/-- C8: a request rejected by the authentication gate changes nothing:
the log file and the memory database of the resulting state are exactly
those of the state before the request. -/
theorem auth_reject_leaves_state_unchanged (secret : String) (st : SysState)
    (now : String) (req : Request) (h : req.apiKey ≠ some secret) :
    (dispatch secret st now req).1.logFile = st.logFile ∧
    (dispatch secret st now req).1.db = st.db := by
  simp [dispatch, authenticate, h]

/-- C8 witness: a keyless add request leaves a concrete state intact. -/
theorem auth_reject_leaves_state_unchanged_witness :
    (dispatch "s3cret" ⟨⟨[⟨1, "t0", "General", "hello"⟩], 1⟩, some ["l1"]⟩ "t1"
        ⟨none, .memoryAdd { category := none, content := some "x" }⟩).1.logFile =
      some ["l1"] ∧
    (dispatch "s3cret" ⟨⟨[⟨1, "t0", "General", "hello"⟩], 1⟩, some ["l1"]⟩ "t1"
        ⟨none, .memoryAdd { category := none, content := some "x" }⟩).1.db =
      ⟨[⟨1, "t0", "General", "hello"⟩], 1⟩ :=
  auth_reject_leaves_state_unchanged "s3cret"
    ⟨⟨[⟨1, "t0", "General", "hello"⟩], 1⟩, some ["l1"]⟩ "t1"
    ⟨none, .memoryAdd { category := none, content := some "x" }⟩ (by decide)

/-- C9: ids assigned by the store are strictly increasing in insertion
order (so each add's id is strictly greater than every id previously
assigned, and ids are unique), and since the sequence counter lives in
the database file, splitting the add sequence at a process restart
changes nothing — ids are never reused across the file's lifetime. -/
theorem memory_ids_strictly_increasing (ops ops1 ops2 : List (String × String × String)) :
    ((applyAdds ops init_db).rows.map Row.id).Pairwise (· < ·) ∧
    applyAdds (ops1 ++ ops2) init_db = applyAdds ops2 (applyAdds ops1 init_db) := by
  constructor
  · exact (applyAdds_inv ops init_db ⟨by simp [init_db], by simp [init_db]⟩).1
  · simp [applyAdds, List.foldl_append]

/-- C10: an accepted add stores the content verbatim — stripping is used
only for the emptiness test, so leading and trailing whitespace survives
in the stored row. -/
theorem add_stores_content_verbatim (st : SysState) (now : String) (payload : Payload)
    (content : String) (hcontent : payload.content = some content)
    (hne : ¬ ∀ c ∈ content.data, isPySpace c) :
    (api_add_memory st now payload).1.db.rows =
      st.db.rows ++ [⟨st.db.seq + 1, now, payload.category.getD "General", content⟩] ∧
    (api_add_memory st now payload).2 =
      ⟨200, .statusMsg "Success" "Memory entry added."⟩ := by
  have hs : ¬ pyStrip content = "" :=
    fun h => hne ((pyStrip_eq_empty_iff content).mp h)
  constructor
  · simp [api_add_memory, hcontent, hs, add_memory_entry, add_row]
  · simp [api_add_memory, hcontent, hs]

/-- C10 witness: content with surrounding whitespace is stored exactly. -/
theorem add_stores_content_verbatim_witness :
    (api_add_memory ⟨init_db, none⟩ "t0"
        { category := none, content := some "  padded  " }).1.db.rows =
      [⟨1, "t0", "General", "  padded  "⟩] ∧
    (api_add_memory ⟨init_db, none⟩ "t0"
        { category := none, content := some "  padded  " }).2 =
      ⟨200, .statusMsg "Success" "Memory entry added."⟩ := by
  have h := add_stores_content_verbatim ⟨init_db, none⟩ "t0"
    { category := none, content := some "  padded  " } "  padded  " rfl (by decide)
  exact ⟨by simpa using h.1, h.2⟩

end AIOS
